import Mathlib

/-!
Shallow embedding of the 1-D interpolation engine `interp` from
`src/adtools.py` (class `interp`: `__init__`, `cspline_resid`, `find`,
`__call__`, `derivative`).

Real numbers are modelled by `ℚ` (exact arithmetic); numpy 1-D arrays by
`List ℚ`.  NumPy slicing translates as: `v[1:]` = `List.tail`,
`v[:-1]` = `List.dropLast`, `v[:1]` = `List.take 1`, `v[-1:]` =
`List.drop (v.length - 1)`, elementwise binary operations = `List.zipWith`,
elementwise scaling/negation = `List.map`, `hstack` = `(· ++ ·)`.

The interpolant object stores `self.x0` (the nodes) and `self.y0`, a 2-D
array with one row per node: one column (the sample values) for the linear
kind, two columns (sample value, fitted derivative) for the cubic kind.
Here the columns are stored separately: `ycol0` is column 0 of `self.y0`
and `ycol1` is column 1, present exactly when the kind is cubic (the
branch condition of the source `self.y0.shape[1] == 2` becomes
`ycol1 = some _`).
-/

/-- The interpolant state after construction (`src/adtools.py`, class
`interp`): nodes `x0`, sample-value column `ycol0` (= `self.y0[:,0]`) and,
for the cubic kind only, the derivative column `ycol1` (= `self.y0[:,1]`). -/
structure interp where
  x0 : List ℚ
  ycol0 : List ℚ
  ycol1 : Option (List ℚ)

/-- The construction-time monotonicity check
`(base(x0)[1:] > base(x0)[:-1]).all()`: adjacent nodes strictly
increase. -/
def mono_ok (l : List ℚ) : Bool :=
  (List.zipWith (fun a b => decide (b < a)) l.tail l).all (fun c => c)

/-- Embeds `dx = x[1:] - x[:-1]` in `interp.cspline_resid`. -/
def dxv (x : List ℚ) : List ℚ :=
  List.zipWith (fun a b => a - b) x.tail x

/-- Embeds `slope = (y[1:] - y[:-1]) / dx` in `interp.cspline_resid`. -/
def slopev (x y : List ℚ) : List ℚ :=
  List.zipWith (fun a b => a / b) (List.zipWith (fun a b => a - b) y.tail y) (dxv x)

/-- Embeds `curv_L = (6 * slope - 4 * yp[:-1] - 2 * yp[1:]) / dx` in
`interp.cspline_resid`. -/
def curv_Lv (yp x y : List ℚ) : List ℚ :=
  List.zipWith (fun a b => a / b)
    (List.zipWith (fun a b => a - b)
      (List.zipWith (fun a b => a - b)
        ((slopev x y).map (fun s => 6 * s))
        (yp.dropLast.map (fun v => 4 * v)))
      (yp.tail.map (fun v => 2 * v)))
    (dxv x)

/-- Embeds `curv_R = (4 * yp[1:] + 2 * yp[:-1] - 6 * slope) / dx` in
`interp.cspline_resid`. -/
def curv_Rv (yp x y : List ℚ) : List ℚ :=
  List.zipWith (fun a b => a / b)
    (List.zipWith (fun a b => a - b)
      (List.zipWith (fun a b => a + b)
        (yp.tail.map (fun v => 4 * v))
        (yp.dropLast.map (fun v => 2 * v)))
      ((slopev x y).map (fun s => 6 * s)))
    (dxv x)

/-- Embeds `interp.cspline_resid(yp, x, y)`:
`hstack([curv_L[:1], curv_L[1:] - curv_R[:-1], -curv_R[-1:]])`. -/
def cspline_resid (yp x y : List ℚ) : List ℚ :=
  (curv_Lv yp x y).take 1 ++
    (List.zipWith (fun a b => a - b) (curv_Lv yp x y).tail (curv_Rv yp x y).dropLast ++
      ((curv_Rv yp x y).drop ((curv_Rv yp x y).length - 1)).map (fun c => -c))

/-- Index form of `dx` used to state claims: `dx_k = x_{k+1} - x_k`. -/
def dxI (x : List ℚ) (k : ℕ) : ℚ := x.getD (k + 1) 0 - x.getD k 0

/-- Index form of the interval secant slope: `s_k = (y_{k+1} - y_k) / dx_k`. -/
def slopeI (x y : List ℚ) (k : ℕ) : ℚ := (y.getD (k + 1) 0 - y.getD k 0) / dxI x k

/-- Index form of the left curvature contribution:
`curv_L_k = (6 s_k - 4 yp_k - 2 yp_{k+1}) / dx_k`. -/
def curvLI (yp x y : List ℚ) (k : ℕ) : ℚ :=
  (6 * slopeI x y k - 4 * yp.getD k 0 - 2 * yp.getD (k + 1) 0) / dxI x k

/-- Index form of the right curvature contribution:
`curv_R_k = (4 yp_{k+1} + 2 yp_k - 6 s_k) / dx_k`. -/
def curvRI (yp x y : List ℚ) (k : ℕ) : ℚ :=
  (4 * yp.getD (k + 1) 0 + 2 * yp.getD k 0 - 6 * slopeI x y k) / dxI x k

section ResidLemmas

lemma length_dxv (x : List ℚ) : (dxv x).length = x.length - 1 := by
  simp [dxv]

lemma length_slopev (x y : List ℚ) (h : y.length = x.length) :
    (slopev x y).length = x.length - 1 := by
  simp [slopev, length_dxv, h]

lemma length_curv_Lv (yp x y : List ℚ) (hy : y.length = x.length)
    (hyp : yp.length = x.length) :
    (curv_Lv yp x y).length = x.length - 1 := by
  simp [curv_Lv, length_slopev x y hy, length_dxv, hyp]

lemma length_curv_Rv (yp x y : List ℚ) (hy : y.length = x.length)
    (hyp : yp.length = x.length) :
    (curv_Rv yp x y).length = x.length - 1 := by
  simp [curv_Rv, length_slopev x y hy, length_dxv, hyp]

lemma length_cspline_resid (yp x y : List ℚ) (hy : y.length = x.length)
    (hyp : yp.length = x.length) (hN : 2 ≤ x.length) :
    (cspline_resid yp x y).length = x.length := by
  simp [cspline_resid, length_curv_Lv yp x y hy hyp, length_curv_Rv yp x y hy hyp,
    length_dxv]
  omega

lemma getElem_dxv (x : List ℚ) (k : ℕ) (h : k < (dxv x).length) :
    (dxv x)[k] = dxI x k := by
  have hk : k + 1 < x.length := by
    have := length_dxv x; omega
  simp only [dxv, List.getElem_zipWith, List.getElem_tail, dxI]
  rw [List.getD_eq_getElem x 0 hk, List.getD_eq_getElem x 0 (by omega)]

lemma getElem_slopev (x y : List ℚ) (hy : y.length = x.length) (k : ℕ)
    (h : k < (slopev x y).length) :
    (slopev x y)[k] = slopeI x y k := by
  have hl : (slopev x y).length = x.length - 1 := length_slopev x y hy
  have hk : k + 1 < y.length := by omega
  simp only [slopev, List.getElem_zipWith, List.getElem_tail, slopeI]
  rw [getElem_dxv x k (by rw [length_dxv]; omega),
    List.getD_eq_getElem y 0 hk, List.getD_eq_getElem y 0 (by omega)]

lemma getElem_curv_Lv (yp x y : List ℚ) (hy : y.length = x.length)
    (hyp : yp.length = x.length) (k : ℕ) (h : k < (curv_Lv yp x y).length) :
    (curv_Lv yp x y)[k] = curvLI yp x y k := by
  have hl : (curv_Lv yp x y).length = x.length - 1 := length_curv_Lv yp x y hy hyp
  have hk1 : k + 1 < yp.length := by omega
  simp only [curv_Lv, List.getElem_zipWith, List.getElem_map, List.getElem_tail,
    List.getElem_dropLast, curvLI]
  rw [getElem_slopev x y hy k (by rw [length_slopev x y hy]; omega),
    getElem_dxv x k (by rw [length_dxv]; omega),
    List.getD_eq_getElem yp 0 (by omega : k < yp.length),
    List.getD_eq_getElem yp 0 hk1]

lemma getElem_curv_Rv (yp x y : List ℚ) (hy : y.length = x.length)
    (hyp : yp.length = x.length) (k : ℕ) (h : k < (curv_Rv yp x y).length) :
    (curv_Rv yp x y)[k] = curvRI yp x y k := by
  have hl : (curv_Rv yp x y).length = x.length - 1 := length_curv_Rv yp x y hy hyp
  have hk1 : k + 1 < yp.length := by omega
  simp only [curv_Rv, List.getElem_zipWith, List.getElem_map, List.getElem_tail,
    List.getElem_dropLast, curvRI]
  rw [getElem_slopev x y hy k (by rw [length_slopev x y hy]; omega),
    getElem_dxv x k (by rw [length_dxv]; omega),
    List.getD_eq_getElem yp 0 (by omega : k < yp.length),
    List.getD_eq_getElem yp 0 hk1]

lemma getElem_cspline_resid_zero (yp x y : List ℚ) (hy : y.length = x.length)
    (hyp : yp.length = x.length) (hN : 2 ≤ x.length)
    (h : 0 < (cspline_resid yp x y).length) :
    (cspline_resid yp x y)[0] = curvLI yp x y 0 := by
  have hL : (curv_Lv yp x y).length = x.length - 1 := length_curv_Lv yp x y hy hyp
  have h1 : 0 < ((curv_Lv yp x y).take 1).length := by
    rw [List.length_take]; omega
  simp only [cspline_resid]
  rw [List.getElem_append_left h1, List.getElem_take]
  exact getElem_curv_Lv yp x y hy hyp 0 (by omega)

lemma getElem_cspline_resid_mid (yp x y : List ℚ) (hy : y.length = x.length)
    (hyp : yp.length = x.length) (hN : 2 ≤ x.length) (i : ℕ) (h1 : 1 ≤ i)
    (h2 : i ≤ x.length - 2) (h : i < (cspline_resid yp x y).length) :
    (cspline_resid yp x y)[i] = curvLI yp x y i - curvRI yp x y (i - 1) := by
  have hL : (curv_Lv yp x y).length = x.length - 1 := length_curv_Lv yp x y hy hyp
  have hR : (curv_Rv yp x y).length = x.length - 1 := length_curv_Rv yp x y hy hyp
  have htake : ((curv_Lv yp x y).take 1).length = 1 := by
    rw [List.length_take]; omega
  have hmidlen : (List.zipWith (fun a b => a - b) (curv_Lv yp x y).tail
      (curv_Rv yp x y).dropLast).length = x.length - 2 := by
    simp [List.length_zipWith, hL, hR]
    omega
  simp only [cspline_resid]
  rw [List.getElem_append_right (by rw [htake]; omega : ((curv_Lv yp x y).take 1).length ≤ i),
    List.getElem_append_left (by rw [hmidlen, htake]; omega)]
  simp only [List.getElem_zipWith, List.getElem_tail, List.getElem_dropLast, htake]
  have hi : i - 1 + 1 = i := by omega
  simp only [hi]
  rw [getElem_curv_Lv yp x y hy hyp i (by omega),
    getElem_curv_Rv yp x y hy hyp (i - 1) (by omega)]

lemma getElem_cspline_resid_last (yp x y : List ℚ) (hy : y.length = x.length)
    (hyp : yp.length = x.length) (hN : 2 ≤ x.length)
    (h : x.length - 1 < (cspline_resid yp x y).length) :
    (cspline_resid yp x y)[x.length - 1] = -(curvRI yp x y (x.length - 2)) := by
  have hL : (curv_Lv yp x y).length = x.length - 1 := length_curv_Lv yp x y hy hyp
  have hR : (curv_Rv yp x y).length = x.length - 1 := length_curv_Rv yp x y hy hyp
  have htake : ((curv_Lv yp x y).take 1).length = 1 := by
    rw [List.length_take]; omega
  have hmidlen : (List.zipWith (fun a b => a - b) (curv_Lv yp x y).tail
      (curv_Rv yp x y).dropLast).length = x.length - 2 := by
    simp [List.length_zipWith, hL, hR]
    omega
  simp only [cspline_resid]
  rw [List.getElem_append_right (by rw [htake]; omega : ((curv_Lv yp x y).take 1).length ≤ x.length - 1),
    List.getElem_append_right (by rw [hmidlen, htake]; omega)]
  simp only [List.getElem_map, List.getElem_drop, htake, hmidlen, hR]
  have hidx : x.length - 1 - 1 + (x.length - 1 - 1 - (x.length - 2)) = x.length - 2 := by
    omega
  simp only [hidx]
  rw [getElem_curv_Rv yp x y hy hyp (x.length - 2) (by omega)]

end ResidLemmas

/-- Embeds `np.searchsorted(base(self.x0), base(x))` with the default side
(insert before equal elements): on a sorted array this is the number of
elements strictly below the query. -/
def searchsorted (a : List ℚ) (v : ℚ) : ℕ :=
  a.countP (fun t => decide (t < v))

/-- The clamped interval index computed inside `interp.find`:
`i = searchsorted(...)`, then `np.maximum(i, 1, i)`, then
`np.minimum(i, self.x0.size - 1, i)`. -/
def interp.findIdx (self : interp) (x : ℚ) : ℕ :=
  min (max (searchsorted self.x0 x) 1) (self.x0.length - 1)

/-- Embeds `interp.find` for a single query value: the bounding node coordinates
`x0, x1 = self.x0[i-1], self.x0[i]` and the sample values
`self.y0[i-1,0], self.y0[i,0]` (the derivative columns, present only for
the cubic kind, are read off `ycol1` at the same indices by the callers). -/
def interp.find (self : interp) (x : ℚ) : ℚ × ℚ × ℚ × ℚ :=
  let i := self.findIdx x
  (self.x0.getD (i - 1) 0, self.x0.getD i 0,
   self.ycol0.getD (i - 1) 0, self.ycol0.getD i 0)

/-- Embeds `interp.__call__` for one scalar component of the (raveled) query
vector: the linear blend `x_x0 * y1 + x_x1 * y0`, plus, when
`self.y0.shape[1] == 2`, the cubic Hermite correction term. -/
def interp.evalAt (self : interp) (x : ℚ) : ℚ :=
  let i := self.findIdx x
  let x0 := self.x0.getD (i - 1) 0
  let x1 := self.x0.getD i 0
  let y0 := self.ycol0.getD (i - 1) 0
  let y1 := self.ycol0.getD i 0
  let x_x0 := (x - x0) / (x1 - x0)
  let x_x1 := 1 - x_x0
  let ylin := x_x0 * y1 + x_x1 * y0
  match self.ycol1 with
  | none => ylin
  | some c =>
    let yp0 := c.getD (i - 1) 0
    let yp1 := c.getD i 0
    let slope := (y1 - y0) / (x1 - x0)
    ylin + ((x_x0 - 2 * x_x0 ^ 2 + x_x0 ^ 3) * (yp0 - slope) * (x1 - x0)
          + (x_x1 - 2 * x_x1 ^ 2 + x_x1 ^ 3) * (yp1 - slope) * (x0 - x1))

/-- Embeds `interp.derivative` for one scalar component of a 1-D query vector:
the secant slope `(y1 - y0) / (x1 - x0)`, plus, when
`self.y0.shape[1] == 2`, the derivative of the Hermite correction. -/
def interp.derivAt (self : interp) (x : ℚ) : ℚ :=
  let i := self.findIdx x
  let x0 := self.x0.getD (i - 1) 0
  let x1 := self.x0.getD i 0
  let y0 := self.ycol0.getD (i - 1) 0
  let y1 := self.ycol0.getD i 0
  let yp := (y1 - y0) / (x1 - x0)
  match self.ycol1 with
  | none => yp
  | some c =>
    let yp0 := c.getD (i - 1) 0
    let yp1 := c.getD i 0
    let x_x0 := (x - x0) / (x1 - x0)
    let x_x1 := 1 - x_x0
    let slope := (y1 - y0) / (x1 - x0)
    yp + (1 - 4 * x_x0 + 3 * x_x0 ^ 2) * (yp0 - slope)
       + (1 - 4 * x_x1 + 3 * x_x1 ^ 2) * (yp1 - slope)

/-- A query collection: shape (list of dimension sizes, `[]` for a 0-d
scalar, `[n]` for 1-D, `[r, c]` for 2-D) together with the row-major
flat data. -/
structure NDArray where
  shape : List ℕ
  data : List ℚ

/-- Well-formedness of a query array: the flat data has exactly
`prod(shape)` entries. -/
def NDArray.wf (a : NDArray) : Prop := a.data.length = a.shape.prod

/-- Embeds `reshape`: it succeeds exactly when the data size matches the requested
shape. -/
def reshape (d : List ℚ) (s : List ℕ) : Option NDArray :=
  if d.length = s.prod then some ⟨s, d⟩ else none

/-- Embeds `interp.__call__` on a shaped query: `shape = x.shape; x = ravel(x)`,
elementwise evaluation of the flat vector, then `y.reshape(shape)`. -/
def interp.evaluate (self : interp) (x : NDArray) : Option NDArray :=
  reshape (x.data.map self.evalAt) x.shape

/-- Embeds `interp.derivative` on a shaped query.  Unlike `__call__`, the source
does not ravel/reshape: `find` receives the query as-is.  For a 1-D query
the index vector `i` is 1-D and everything proceeds elementwise.  For a
0-d (scalar) query the lookup fails: `np.searchsorted` returns a plain
integer scalar, so the in-place clamp `np.maximum(i, 1, i)` has no array
to write into (TypeError), and the row extracted by `self.y0[i - 1]` is
1-D, so the column access `y0[:, 0]` is an invalid two-axis index.
Queries of rank ≥ 2 index the external AD array with a multi-dimensional
index array, which is outside the collaborator contract; they are
likewise modelled as not producing a same-shape result. -/
def interp.derivative (self : interp) (x : NDArray) : Option NDArray :=
  if x.shape.length = 1 then some ⟨x.shape, x.data.map self.derivAt⟩ else none

/-- Embeds `interp.__init__`: it asserts strict monotonicity of the nodes, then
builds the value table for a recognized kind and raises `ValueError`
otherwise.  The nonlinear solver invoked for the cubic kind lives in
`numpad.adsolve`, outside this core; it is abstracted as the function
argument `sol`, so that construction-success facts hold for every solver
outcome.  No length comparison between `x0` and `y0` appears in the
source. -/
def interp.mk? (sol : List ℚ → List ℚ → List ℚ) (x0 y0 : List ℚ)
    (type : String) : Option interp :=
  if mono_ok x0 then
    if type = "linear" then some ⟨x0, y0, none⟩
    else if type = "cubic" then some ⟨x0, y0, some (sol x0 y0)⟩
    else none
  else none

section SortedSearch

lemma mono_ok_iff_chain (l : List ℚ) :
    mono_ok l = true ↔ l.Chain' (· < ·) := by
  induction l with
  | nil => simp [mono_ok]
  | cons a t ih =>
    cases t with
    | nil => simp [mono_ok]
    | cons b u =>
      have hstep : mono_ok (a :: b :: u) = (decide (a < b) && mono_ok (b :: u)) := by
        simp [mono_ok]
      rw [hstep, Bool.and_eq_true, decide_eq_true_eq, ih, List.chain'_cons]

lemma mono_ok_pairwise (l : List ℚ) (h : mono_ok l = true) :
    l.Pairwise (· < ·) :=
  List.chain'_iff_pairwise.mp ((mono_ok_iff_chain l).mp h)

lemma mono_getElem_lt (l : List ℚ) (h : mono_ok l = true) (i j : ℕ)
    (hi : i < l.length) (hj : j < l.length) (hij : i < j) : l[i] < l[j] :=
  List.pairwise_iff_getElem.mp (mono_ok_pairwise l h) i j hi hj hij

lemma mono_getElem_le (l : List ℚ) (h : mono_ok l = true) (i j : ℕ)
    (hi : i < l.length) (hj : j < l.length) (hij : i ≤ j) : l[i] ≤ l[j] := by
  rcases Nat.lt_or_ge i j with hlt | hge
  · exact le_of_lt (mono_getElem_lt l h i j hi hj hlt)
  · have : i = j := by omega
    subst this
    exact le_refl _

lemma searchsorted_le_length (a : List ℚ) (v : ℚ) :
    searchsorted a v ≤ a.length :=
  List.countP_le_length _

lemma getElem_lt_of_lt_searchsorted (l : List ℚ) (h : mono_ok l = true)
    (v : ℚ) (k : ℕ) (hk : k < l.length) (hc : k < searchsorted l v) :
    l[k] < v := by
  by_contra hnot
  push_neg at hnot
  have hsplit : searchsorted l v =
      (l.take k).countP (fun t => decide (t < v)) +
      (l.drop k).countP (fun t => decide (t < v)) := by
    rw [searchsorted, ← List.countP_append, List.take_append_drop]
  have hdrop : (l.drop k).countP (fun t => decide (t < v)) = 0 := by
    rw [List.countP_eq_zero]
    intro b hb
    rcases List.mem_iff_getElem.mp hb with ⟨m, hm, rfl⟩
    have hkm : k + m < l.length := by
      have := List.length_drop k l
      omega
    simp only [List.getElem_drop, decide_eq_true_eq]
    intro hlt
    have : l[k] ≤ l[k + m] := by
      rcases Nat.eq_zero_or_pos m with hm0 | hm0
      · subst hm0; simp
      · exact le_of_lt (mono_getElem_lt l h k (k + m) hk (by
          have := List.length_drop k l; omega) (by omega))
    exact absurd (lt_of_le_of_lt this hlt) (not_lt.mpr hnot)
  have htk : (l.take k).countP (fun t => decide (t < v)) ≤ k := by
    calc (l.take k).countP (fun t => decide (t < v)) ≤ (l.take k).length :=
          List.countP_le_length _
      _ ≤ k := by rw [List.length_take]; omega
  omega

lemma le_getElem_of_searchsorted_le (l : List ℚ) (h : mono_ok l = true)
    (v : ℚ) (k : ℕ) (hk : k < l.length) (hc : searchsorted l v ≤ k) :
    v ≤ l[k] := by
  by_contra hnot
  push_neg at hnot
  have hsplit : searchsorted l v =
      (l.take (k + 1)).countP (fun t => decide (t < v)) +
      (l.drop (k + 1)).countP (fun t => decide (t < v)) := by
    rw [searchsorted, ← List.countP_append, List.take_append_drop]
  have hlen : (l.take (k + 1)).length = k + 1 := by
    rw [List.length_take]; omega
  have hall : ∀ b ∈ l.take (k + 1), (fun t => decide (t < v)) b = true := by
    intro b hb
    rcases List.mem_iff_getElem.mp hb with ⟨m, hm, rfl⟩
    have hmk : m < k + 1 := by rw [hlen] at hm; omega
    simp only [List.getElem_take, decide_eq_true_eq]
    rcases Nat.lt_or_ge m k with hmk' | hmk'
    · exact lt_trans (mono_getElem_lt l h m k (by omega) hk hmk') hnot
    · have : m = k := by omega
      subst this; exact hnot
  have htk := List.countP_eq_length.mpr hall
  rw [hlen] at htk
  omega

end SortedSearch

section FindIdxLemmas

lemma searchsorted_at_node (l : List ℚ) (hm : mono_ok l = true) (i : ℕ)
    (hi : i < l.length) : searchsorted l l[i] = i := by
  have h1 : ¬ i < searchsorted l l[i] := fun hc =>
    lt_irrefl _ (getElem_lt_of_lt_searchsorted l hm _ i hi hc)
  have h2 : ¬ searchsorted l l[i] < i := by
    intro hc
    have hcl : searchsorted l l[i] < l.length := by omega
    have hle := le_getElem_of_searchsorted_le l hm l[i] (searchsorted l l[i]) hcl
      (le_refl _)
    exact absurd hle (not_le.mpr (mono_getElem_lt l hm _ i hcl hi hc))
  omega

lemma findIdx_bounds (self : interp) (h2 : 2 ≤ self.x0.length) (x : ℚ) :
    1 ≤ self.findIdx x ∧ self.findIdx x ≤ self.x0.length - 1 := by
  unfold interp.findIdx
  omega

lemma findIdx_at_node (self : interp) (hm : mono_ok self.x0 = true)
    (h2 : 2 ≤ self.x0.length) (i : ℕ) (hi : i < self.x0.length) :
    self.findIdx (self.x0.getD i 0) = if i = 0 then 1 else i := by
  unfold interp.findIdx
  rw [List.getD_eq_getElem self.x0 0 hi, searchsorted_at_node self.x0 hm i hi]
  rcases Nat.eq_zero_or_pos i with h0 | h0
  · subst h0; simp; omega
  · rw [if_neg (by omega)]; omega

lemma findIdx_of_le_first (self : interp) (hm : mono_ok self.x0 = true)
    (h2 : 2 ≤ self.x0.length) (x : ℚ) (hx : x ≤ self.x0.getD 0 0) :
    self.findIdx x = 1 := by
  have hss : searchsorted self.x0 x = 0 := by
    rw [searchsorted, List.countP_eq_zero]
    intro b hb
    rcases List.mem_iff_getElem.mp hb with ⟨m, hmlt, rfl⟩
    simp only [decide_eq_true_eq]
    intro hlt
    have hlen0 : 0 < self.x0.length := by omega
    have h0m : self.x0[0] ≤ self.x0[m] := by
      rcases Nat.eq_zero_or_pos m with h0 | h0
      · subst h0; exact le_refl _
      · exact le_of_lt (mono_getElem_lt self.x0 hm 0 m (by omega) hmlt h0)
    rw [List.getD_eq_getElem self.x0 0 (by omega)] at hx
    exact absurd (lt_of_le_of_lt (le_trans hx h0m) hlt) (lt_irrefl x)
  unfold interp.findIdx
  rw [hss]
  omega

lemma findIdx_of_last_le (self : interp) (hm : mono_ok self.x0 = true)
    (h2 : 2 ≤ self.x0.length) (x : ℚ)
    (hx : self.x0.getD (self.x0.length - 1) 0 ≤ x) :
    self.findIdx x = self.x0.length - 1 := by
  have hss : self.x0.length - 1 ≤ searchsorted self.x0 x := by
    by_contra hc
    push_neg at hc
    have hcl : searchsorted self.x0 x < self.x0.length := by omega
    have hle := le_getElem_of_searchsorted_le self.x0 hm x _ hcl (le_refl _)
    have hlenl : self.x0.length - 1 < self.x0.length := by omega
    have hlt : self.x0[searchsorted self.x0 x] < self.x0[self.x0.length - 1] :=
      mono_getElem_lt self.x0 hm _ _ hcl hlenl (by omega)
    rw [List.getD_eq_getElem self.x0 0 (by omega)] at hx
    linarith
  unfold interp.findIdx
  omega

lemma findIdx_bracket (self : interp) (hm : mono_ok self.x0 = true)
    (h2 : 2 ≤ self.x0.length) (x : ℚ) (hlo : self.x0.getD 0 0 < x)
    (hhi : x ≤ self.x0.getD (self.x0.length - 1) 0) :
    self.x0.getD (self.findIdx x - 1) 0 < x ∧
      x ≤ self.x0.getD (self.findIdx x) 0 := by
  rw [List.getD_eq_getElem self.x0 0 (by omega)] at hhi
  rw [List.getD_eq_getElem self.x0 0 (by omega : 0 < self.x0.length)] at hlo
  have hc1 : 1 ≤ searchsorted self.x0 x := by
    by_contra hc
    push_neg at hc
    have hle := le_getElem_of_searchsorted_le self.x0 hm x 0 (by omega) (by omega)
    linarith
  have hc2 : searchsorted self.x0 x ≤ self.x0.length - 1 := by
    by_contra hc
    push_neg at hc
    have hlt := getElem_lt_of_lt_searchsorted self.x0 hm x (self.x0.length - 1)
      (by omega) (by omega)
    linarith
  have hj : self.findIdx x = searchsorted self.x0 x := by
    unfold interp.findIdx; omega
  constructor
  · rw [hj, List.getD_eq_getElem self.x0 0 (by omega)]
    exact getElem_lt_of_lt_searchsorted self.x0 hm x _ (by omega) (by omega)
  · rw [hj, List.getD_eq_getElem self.x0 0 (by omega)]
    exact le_getElem_of_searchsorted_le self.x0 hm x _ (by omega) (le_refl _)

lemma bracket_unique (self : interp) (hm : mono_ok self.x0 = true)
    (h2 : 2 ≤ self.x0.length) (x : ℚ) (i : ℕ) (hi1 : 1 ≤ i)
    (hi2 : i ≤ self.x0.length - 1)
    (hbr : self.x0.getD (i - 1) 0 < x ∧ x ≤ self.x0.getD i 0) :
    i = self.findIdx x := by
  obtain ⟨hbl, hbu⟩ := hbr
  rw [List.getD_eq_getElem self.x0 0 (by omega)] at hbl
  rw [List.getD_eq_getElem self.x0 0 (by omega)] at hbu
  have hlo : self.x0.getD 0 0 < x := by
    rw [List.getD_eq_getElem self.x0 0 (by omega : 0 < self.x0.length)]
    exact lt_of_le_of_lt (mono_getElem_le self.x0 hm 0 (i - 1) (by omega) (by omega)
      (by omega)) hbl
  have hhi : x ≤ self.x0.getD (self.x0.length - 1) 0 := by
    rw [List.getD_eq_getElem self.x0 0 (by omega)]
    exact le_trans hbu (mono_getElem_le self.x0 hm i _ (by omega) (by omega) (by omega))
  obtain ⟨hjl, hju⟩ := findIdx_bracket self hm h2 x hlo hhi
  obtain ⟨hj1, hj2⟩ := findIdx_bounds self h2 x
  set j := self.findIdx x with hjdef
  rw [List.getD_eq_getElem self.x0 0 (by omega)] at hjl
  rw [List.getD_eq_getElem self.x0 0 (by omega)] at hju
  by_contra hne
  rcases Nat.lt_or_ge i j with hij | hij
  · have hj1l : j - 1 < self.x0.length := by omega
    have hle : self.x0[i] ≤ self.x0[j - 1] :=
      mono_getElem_le self.x0 hm i (j - 1) (by omega) hj1l (by omega)
    linarith
  · have hji : j < i := by omega
    have hi1l : i - 1 < self.x0.length := by omega
    have hle : self.x0[j] ≤ self.x0[i - 1] :=
      mono_getElem_le self.x0 hm j (i - 1) (by omega) hi1l (by omega)
    linarith

lemma findIdx_interval_pos (self : interp) (hm : mono_ok self.x0 = true)
    (h2 : 2 ≤ self.x0.length) (x : ℚ) :
    self.x0.getD (self.findIdx x - 1) 0 < self.x0.getD (self.findIdx x) 0 := by
  obtain ⟨hj1, hj2⟩ := findIdx_bounds self h2 x
  rw [List.getD_eq_getElem self.x0 0 (by omega), List.getD_eq_getElem self.x0 0 (by omega)]
  exact mono_getElem_lt self.x0 hm _ _ (by omega) (by omega) (by omega)

end FindIdxLemmas

section EvalLemmas

lemma getD_lt_getD (l : List ℚ) (hm : mono_ok l = true) (i j : ℕ)
    (hi : i < l.length) (hj : j < l.length) (hij : i < j) :
    l.getD i 0 < l.getD j 0 := by
  have hlt := mono_getElem_lt l hm i j hi hj hij
  rwa [← List.getD_eq_getElem l 0 hi, ← List.getD_eq_getElem l 0 hj] at hlt

lemma evalAt_node (self : interp) (hm : mono_ok self.x0 = true)
    (h2 : 2 ≤ self.x0.length) (i : ℕ) (hi : i < self.x0.length) :
    self.evalAt (self.x0.getD i 0) = self.ycol0.getD i 0 := by
  have hjf := findIdx_at_node self hm h2 i hi
  rcases Nat.eq_zero_or_pos i with h0 | h0
  · subst h0
    rw [if_pos rfl] at hjf
    cases hyo : self.ycol1 with
    | none =>
      simp only [interp.evalAt, hyo, hjf]
      norm_num
    | some c =>
      simp only [interp.evalAt, hyo, hjf]
      norm_num
  · rw [if_neg (by omega)] at hjf
    have hlt : self.x0.getD (i - 1) 0 < self.x0.getD i 0 :=
      getD_lt_getD self.x0 hm (i - 1) i (by omega) hi (by omega)
    have hne : self.x0.getD i 0 - self.x0.getD (i - 1) 0 ≠ 0 :=
      sub_ne_zero.mpr (ne_of_gt hlt)
    cases hyo : self.ycol1 with
    | none =>
      simp only [interp.evalAt, hyo, hjf]
      rw [div_self hne]
      ring
    | some c =>
      simp only [interp.evalAt, hyo, hjf]
      rw [div_self hne]
      ring

lemma derivAt_node (self : interp) (hm : mono_ok self.x0 = true)
    (h2 : 2 ≤ self.x0.length) (c : List ℚ) (hyo : self.ycol1 = some c)
    (i : ℕ) (hi : i < self.x0.length) :
    self.derivAt (self.x0.getD i 0) = c.getD i 0 := by
  have hjf := findIdx_at_node self hm h2 i hi
  rcases Nat.eq_zero_or_pos i with h0 | h0
  · subst h0
    rw [if_pos rfl] at hjf
    simp only [interp.derivAt, hyo, hjf]
    norm_num
  · rw [if_neg (by omega)] at hjf
    have hlt : self.x0.getD (i - 1) 0 < self.x0.getD i 0 :=
      getD_lt_getD self.x0 hm (i - 1) i (by omega) hi (by omega)
    have hne : self.x0.getD i 0 - self.x0.getD (i - 1) 0 ≠ 0 :=
      sub_ne_zero.mpr (ne_of_gt hlt)
    simp only [interp.derivAt, hyo, hjf]
    rw [div_self hne]
    ring

lemma evalAt_linear_affine (self : interp) (hm : mono_ok self.x0 = true)
    (h2 : 2 ≤ self.x0.length) (hlin : self.ycol1 = none) (a b : ℚ)
    (haff : ∀ i, i < self.x0.length → self.ycol0.getD i 0 = a * self.x0.getD i 0 + b)
    (x : ℚ) : self.evalAt x = a * x + b := by
  obtain ⟨hj1, hj2⟩ := findIdx_bounds self h2 x
  have hlt := findIdx_interval_pos self hm h2 x
  have hne : self.x0.getD (self.findIdx x) 0 - self.x0.getD (self.findIdx x - 1) 0 ≠ 0 :=
    sub_ne_zero.mpr (ne_of_gt hlt)
  have h0 := haff (self.findIdx x - 1) (by omega)
  have h1 := haff (self.findIdx x) (by omega)
  simp only [interp.evalAt, hlin]
  rw [h0, h1]
  set x0v := self.x0.getD (self.findIdx x - 1) 0 with hx0v
  set x1v := self.x0.getD (self.findIdx x) 0 with hx1v
  have hne2 : x1v - x0v ≠ 0 := hne
  field_simp [hne2]
  ring

end EvalLemmas

section VectorLemmas

lemma getD_zipWith (f : ℚ → ℚ → ℚ) (u v : List ℚ) (k : ℕ)
    (hk : k < u.length) (hk' : k < v.length) :
    (List.zipWith f u v).getD k 0 = f (u.getD k 0) (v.getD k 0) := by
  rw [List.getD_eq_getElem _ 0 (by rw [List.length_zipWith]; omega),
    List.getElem_zipWith, List.getD_eq_getElem u 0 hk, List.getD_eq_getElem v 0 hk']

lemma evaluate_nodes (self : interp) (hm : mono_ok self.x0 = true)
    (h2 : 2 ≤ self.x0.length) (hy : self.ycol0.length = self.x0.length) :
    self.evaluate ⟨[self.x0.length], self.x0⟩ =
      some ⟨[self.x0.length], self.ycol0⟩ := by
  unfold interp.evaluate reshape
  rw [if_pos (by simp)]
  have hdata : self.x0.map self.evalAt = self.ycol0 := by
    apply List.ext_getElem
    · simp [hy]
    · intro i h1 h2'
      simp only [List.getElem_map]
      have hi : i < self.x0.length := by simpa using h1
      have he := evalAt_node self hm h2 i hi
      rw [List.getD_eq_getElem self.x0 0 hi] at he
      rw [he, List.getD_eq_getElem self.ycol0 0 h2']
  rw [hdata]

lemma derivative_nodes (self : interp) (hm : mono_ok self.x0 = true)
    (h2 : 2 ≤ self.x0.length) (c : List ℚ) (hyo : self.ycol1 = some c)
    (hc : c.length = self.x0.length) :
    self.derivative ⟨[self.x0.length], self.x0⟩ =
      some ⟨[self.x0.length], c⟩ := by
  unfold interp.derivative
  rw [if_pos (by simp)]
  have hdata : self.x0.map self.derivAt = c := by
    apply List.ext_getElem
    · simp [hc]
    · intro i h1 h2'
      simp only [List.getElem_map]
      have hi : i < self.x0.length := by simpa using h1
      have he := derivAt_node self hm h2 c hyo i hi
      rw [List.getD_eq_getElem self.x0 0 hi] at he
      rw [he, List.getD_eq_getElem c 0 h2']
  rw [hdata]

lemma evaluate_shape (self : interp) (x : NDArray) (hwf : x.wf) :
    self.evaluate x = some ⟨x.shape, x.data.map self.evalAt⟩ := by
  unfold interp.evaluate reshape
  rw [if_pos (by rw [List.length_map]; exact hwf)]

lemma derivative_shape_1d (self : interp) (x : NDArray)
    (h1 : x.shape.length = 1) :
    self.derivative x = some ⟨x.shape, x.data.map self.derivAt⟩ := by
  unfold interp.derivative
  rw [if_pos h1]

end VectorLemmas

section ConstructionLemmas

lemma mk?_isSome (sol : List ℚ → List ℚ → List ℚ) (x0 y0 : List ℚ)
    (type : String) :
    (interp.mk? sol x0 y0 type).isSome =
      (mono_ok x0 && (type == "linear" || type == "cubic")) := by
  unfold interp.mk?
  by_cases hmono : mono_ok x0
  · rw [if_pos hmono, hmono]
    by_cases hl : type = "linear"
    · rw [if_pos hl, hl]
      rfl
    · rw [if_neg hl]
      by_cases hcu : type = "cubic"
      · rw [if_pos hcu, hcu]
        rfl
      · rw [if_neg hcu]
        have hl' : (type == "linear") = false := by
          simpa using hl
        have hc' : (type == "cubic") = false := by
          simpa using hcu
        rw [hl', hc']
        rfl
  · rw [if_neg hmono]
    have : mono_ok x0 = false := by
      simpa using hmono
    rw [this]
    rfl

end ConstructionLemmas

/-- The linear interpolant state over nodes `[0,1,2]` with samples
`[0,1,4]` (the linear concrete scenario of the spec). -/
def itp012 : interp := ⟨[0, 1, 2], [0, 1, 4], none⟩

/-- The linear interpolant state over nodes `[0,1,2]` with affine samples
`y = 2 x + 1`. -/
def itpAff : interp := ⟨[0, 1, 2], [1, 3, 5], none⟩

/-- The cubic interpolant state over nodes `[0,1,2,3]` and samples
`[0,1,0,1]`, with stored derivative column `yp`. -/
def cubic0123 (yp : List ℚ) : interp := ⟨[0, 1, 2, 3], [0, 1, 0, 1], some yp⟩

/-- C1: for strictly increasing nodes `x` of length `N ≥ 2`, samples `y`
of length `N` and a candidate derivative vector `yp` of length `N`, the
continuity residual is the length-`N` vector with entry `0` equal to
`curv_L_0`, entry `i` (for `1 ≤ i ≤ N-2`) equal to
`curv_L_i - curv_R_(i-1)`, and entry `N-1` equal to `-curv_R_(N-2)`,
where `dx_k = x_(k+1) - x_k`, `s_k = (y_(k+1) - y_k)/dx_k`,
`curv_L_k = (6 s_k - 4 yp_k - 2 yp_(k+1))/dx_k` and
`curv_R_k = (4 yp_(k+1) + 2 yp_k - 6 s_k)/dx_k`. -/
theorem C1_cspline_resid_entries (yp x y : List ℚ) (N : ℕ)
    (hm : mono_ok x = true) (hx : x.length = N) (hy : y.length = N)
    (hyp : yp.length = N) (hN : 2 ≤ N) :
    (cspline_resid yp x y).length = N ∧
    (cspline_resid yp x y).getD 0 0 = curvLI yp x y 0 ∧
    (∀ i, 1 ≤ i → i ≤ N - 2 →
      (cspline_resid yp x y).getD i 0 = curvLI yp x y i - curvRI yp x y (i - 1)) ∧
    (cspline_resid yp x y).getD (N - 1) 0 = -(curvRI yp x y (N - 2)) := by
  subst hx
  have hlen := length_cspline_resid yp x y hy hyp hN
  refine ⟨hlen, ?_, ?_, ?_⟩
  · rw [List.getD_eq_getElem _ 0 (by omega)]
    exact getElem_cspline_resid_zero yp x y hy hyp hN (by omega)
  · intro i h1 h2
    rw [List.getD_eq_getElem _ 0 (by omega)]
    exact getElem_cspline_resid_mid yp x y hy hyp hN i h1 h2 (by omega)
  · rw [List.getD_eq_getElem _ 0 (by omega)]
    exact getElem_cspline_resid_last yp x y hy hyp hN (by omega)

/-- Witness for C1 at `x = [0,1,2]`, `y = [0,0,0]`, `yp = [0,0,0]`,
`N = 3`. -/
theorem C1_witness :
    (cspline_resid [0, 0, 0] [(0:ℚ), 1, 2] [0, 0, 0]).length = 3 ∧
    (cspline_resid [0, 0, 0] [(0:ℚ), 1, 2] [0, 0, 0]).getD 1 0 =
      curvLI [0, 0, 0] [(0:ℚ), 1, 2] [0, 0, 0] 1 -
        curvRI [0, 0, 0] [(0:ℚ), 1, 2] [0, 0, 0] 0 := by
  have h := C1_cspline_resid_entries [0, 0, 0] [(0:ℚ), 1, 2] [0, 0, 0] 3
    (by decide) rfl rfl rfl (by norm_num)
  exact ⟨h.1, h.2.2.1 1 (by norm_num) (by norm_num)⟩

/-- C9: for fixed nodes and samples, the continuity residual is an affine
function of the derivative vector: it maps the affine combination
`a*u + (1-a)*v` of derivative vectors to the same affine combination of
the residuals. -/
theorem C9_resid_affine (x y u v : List ℚ) (a : ℚ) (N : ℕ)
    (hm : mono_ok x = true) (hx : x.length = N) (hy : y.length = N)
    (hu : u.length = N) (hv : v.length = N) (hN : 2 ≤ N) :
    cspline_resid (List.zipWith (fun p q => a * p + (1 - a) * q) u v) x y =
      List.zipWith (fun p q => a * p + (1 - a) * q)
        (cspline_resid u x y) (cspline_resid v x y) := by
  subst hx
  have hw : (List.zipWith (fun p q => a * p + (1 - a) * q) u v).length = x.length := by
    rw [List.length_zipWith]
    omega
  have hlw := length_cspline_resid _ x y hy hw hN
  have hlu := length_cspline_resid u x y hy hu hN
  have hlv := length_cspline_resid v x y hy hv hN
  apply List.ext_getElem
  · rw [hlw, List.length_zipWith, hlu, hlv]
    omega
  · intro i h1 h2
    have hiN : i < x.length := by omega
    rw [List.getElem_zipWith]
    rcases Nat.eq_zero_or_pos i with h0 | h0
    · subst h0
      rw [getElem_cspline_resid_zero _ x y hy hw hN (by omega),
        getElem_cspline_resid_zero u x y hy hu hN (by omega),
        getElem_cspline_resid_zero v x y hy hv hN (by omega)]
      simp only [curvLI, slopeI, dxI,
        getD_zipWith _ u v 0 (by omega) (by omega),
        getD_zipWith _ u v 1 (by omega) (by omega)]
      ring
    · rcases Nat.lt_or_ge i (x.length - 1) with hmid | hlast
      · rw [getElem_cspline_resid_mid _ x y hy hw hN i h0 (by omega) (by omega),
          getElem_cspline_resid_mid u x y hy hu hN i h0 (by omega) (by omega),
          getElem_cspline_resid_mid v x y hy hv hN i h0 (by omega) (by omega)]
        have him : i - 1 + 1 = i := by omega
        simp only [curvLI, curvRI, slopeI, dxI, him,
          getD_zipWith _ u v i (by omega) (by omega),
          getD_zipWith _ u v (i + 1) (by omega) (by omega),
          getD_zipWith _ u v (i - 1) (by omega) (by omega)]
        ring
      · have hieq : i = x.length - 1 := by omega
        subst hieq
        rw [getElem_cspline_resid_last _ x y hy hw hN (by omega),
          getElem_cspline_resid_last u x y hy hu hN (by omega),
          getElem_cspline_resid_last v x y hy hv hN (by omega)]
        have hm2 : x.length - 2 + 1 = x.length - 1 := by omega
        simp only [curvRI, slopeI, dxI, hm2,
          getD_zipWith _ u v (x.length - 2) (by omega) (by omega),
          getD_zipWith _ u v (x.length - 1) (by omega) (by omega)]
        ring

/-- Witness for C9 at `x = [0,1,2]`, `y = [0,1,0]`, `u = [1,2,3]`,
`v = [0,0,1]`, `a = 2`. -/
theorem C9_witness :
    cspline_resid
        (List.zipWith (fun p q => 2 * p + (1 - 2) * q) [(1:ℚ), 2, 3] [0, 0, 1])
        [(0:ℚ), 1, 2] [0, 1, 0] =
      List.zipWith (fun p q => 2 * p + (1 - 2) * q)
        (cspline_resid [(1:ℚ), 2, 3] [(0:ℚ), 1, 2] [0, 1, 0])
        (cspline_resid [(0:ℚ), 0, 1] [(0:ℚ), 1, 2] [0, 1, 0]) :=
  C9_resid_affine [(0:ℚ), 1, 2] [0, 1, 0] [1, 2, 3] [0, 0, 1] 2 3
    (by decide) rfl rfl rfl rfl (by norm_num)

/-- C2: for every valid interpolant of either kind (and, in the cubic
case, for any stored derivative vector), evaluating at each node returns
the corresponding sample exactly, both pointwise and as a whole query
vector over the nodes. -/
theorem C2_eval_matches_samples (self : interp) (hm : mono_ok self.x0 = true)
    (h2 : 2 ≤ self.x0.length) (hy : self.ycol0.length = self.x0.length)
    (i : ℕ) (hi : i < self.x0.length) :
    self.evalAt (self.x0.getD i 0) = self.ycol0.getD i 0 ∧
    self.evaluate ⟨[self.x0.length], self.x0⟩ =
      some ⟨[self.x0.length], self.ycol0⟩ :=
  ⟨evalAt_node self hm h2 i hi, evaluate_nodes self hm h2 hy⟩

/-- Witness for C2: the cubic state over `[0,1,2,3]`, `[0,1,0,1]` with an
arbitrary stored derivative vector `[7,8,9,10]`, at node index 2. -/
theorem C2_witness :
    (cubic0123 [7, 8, 9, 10]).evalAt ((cubic0123 [7, 8, 9, 10]).x0.getD 2 0) =
      (cubic0123 [7, 8, 9, 10]).ycol0.getD 2 0 ∧
    (cubic0123 [7, 8, 9, 10]).evaluate
        ⟨[(cubic0123 [7, 8, 9, 10]).x0.length], (cubic0123 [7, 8, 9, 10]).x0⟩ =
      some ⟨[(cubic0123 [7, 8, 9, 10]).x0.length], (cubic0123 [7, 8, 9, 10]).ycol0⟩ :=
  C2_eval_matches_samples (cubic0123 [7, 8, 9, 10]) (by decide) (by decide)
    (by decide) 2 (by decide)

/-- C6: a linear-kind interpolant with affine samples `y = a*x + b`
reproduces `a*x + b` exactly at every query point, including
extrapolation below the first and above the last node. -/
theorem C6_linear_exact (self : interp) (hm : mono_ok self.x0 = true)
    (h2 : 2 ≤ self.x0.length) (hlin : self.ycol1 = none) (a b : ℚ)
    (haff : ∀ i, i < self.x0.length →
      self.ycol0.getD i 0 = a * self.x0.getD i 0 + b)
    (x : ℚ) : self.evalAt x = a * x + b :=
  evalAt_linear_affine self hm h2 hlin a b haff x

/-- Witness for C6: nodes `[0,1,2]`, samples `y = 2x + 1`, queried at the
extrapolation point `x = 7`. -/
theorem C6_witness : itpAff.evalAt 7 = 2 * 7 + 1 :=
  C6_linear_exact itpAff (by decide) (by decide) rfl 2 1
    (by
      intro i hi
      simp only [itpAff] at hi ⊢
      norm_num at hi
      interval_cases i <;> norm_num [List.getD])
    7

/-- C7: the `derivative` of a cubic interpolant, evaluated at the nodes,
returns exactly the stored per-node derivative coefficients, both
pointwise and as a whole query vector over the nodes. -/
theorem C7_deriv_matches_stored (self : interp) (hm : mono_ok self.x0 = true)
    (h2 : 2 ≤ self.x0.length) (c : List ℚ) (hyo : self.ycol1 = some c)
    (hc : c.length = self.x0.length) (i : ℕ) (hi : i < self.x0.length) :
    self.derivAt (self.x0.getD i 0) = c.getD i 0 ∧
    self.derivative ⟨[self.x0.length], self.x0⟩ = some ⟨[self.x0.length], c⟩ :=
  ⟨derivAt_node self hm h2 c hyo i hi, derivative_nodes self hm h2 c hyo hc⟩

/-- Witness for C7: the cubic state over `[0,1,2,3]` with stored
derivative vector `[7,8,9,10]`, at node index 1. -/
theorem C7_witness :
    (cubic0123 [7, 8, 9, 10]).derivAt ((cubic0123 [7, 8, 9, 10]).x0.getD 1 0) =
      ([7, 8, 9, 10] : List ℚ).getD 1 0 ∧
    (cubic0123 [7, 8, 9, 10]).derivative
        ⟨[(cubic0123 [7, 8, 9, 10]).x0.length], (cubic0123 [7, 8, 9, 10]).x0⟩ =
      some ⟨[(cubic0123 [7, 8, 9, 10]).x0.length], [7, 8, 9, 10]⟩ :=
  C7_deriv_matches_stored (cubic0123 [7, 8, 9, 10]) (by decide) (by decide)
    [7, 8, 9, 10] rfl (by decide) 1 (by decide)

/-- C10: for every interpolant with `N ≥ 2` strictly increasing nodes and
every query, the clamped index lies in `[1, N-1]`, the bounding interval
has positive width (so every division by `x1 - x0` is by a nonzero
quantity), and all node/value accesses at indices `i-1`, `i` are in
bounds — evaluation is total on all real query inputs. -/
theorem C10_lookup_safety (self : interp) (hm : mono_ok self.x0 = true)
    (h2 : 2 ≤ self.x0.length) (hy : self.ycol0.length = self.x0.length)
    (x : ℚ) :
    (1 ≤ self.findIdx x ∧ self.findIdx x ≤ self.x0.length - 1) ∧
    (self.findIdx x - 1 < self.x0.length ∧ self.findIdx x < self.x0.length ∧
     self.findIdx x - 1 < self.ycol0.length ∧ self.findIdx x < self.ycol0.length) ∧
    0 < self.x0.getD (self.findIdx x) 0 - self.x0.getD (self.findIdx x - 1) 0 ∧
    (∀ c, self.ycol1 = some c → c.length = self.x0.length →
      self.findIdx x - 1 < c.length ∧ self.findIdx x < c.length) := by
  obtain ⟨hj1, hj2⟩ := findIdx_bounds self h2 x
  have hpos := findIdx_interval_pos self hm h2 x
  refine ⟨⟨hj1, hj2⟩, ⟨by omega, by omega, by omega, by omega⟩, by linarith, ?_⟩
  intro c hyo hc
  omega

/-- Witness for C10: the linear state over `[0,1,2]` queried at the
out-of-range point `x = 5`. -/
theorem C10_witness :
    (1 ≤ itp012.findIdx 5 ∧ itp012.findIdx 5 ≤ itp012.x0.length - 1) ∧
    (itp012.findIdx 5 - 1 < itp012.x0.length ∧
     itp012.findIdx 5 < itp012.x0.length ∧
     itp012.findIdx 5 - 1 < itp012.ycol0.length ∧
     itp012.findIdx 5 < itp012.ycol0.length) ∧
    0 < itp012.x0.getD (itp012.findIdx 5) 0 -
        itp012.x0.getD (itp012.findIdx 5 - 1) 0 := by
  have h := C10_lookup_safety itp012 (by decide) (by decide) (by decide) 5
  exact ⟨h.1, h.2.1, h.2.2.1⟩

/-- Counterexample to C3 as stated: at the node query `x = 1` over nodes
`[0,1,2]`, `find` clamps the left-insertion point to interval index 1,
which does not satisfy the claimed bracket `nodes[i-1] ≤ x < nodes[i]`
(that bracket instead holds for index 2, which the code does not
return). -/
theorem C3_counterexample :
    itp012.findIdx 1 = 1 ∧
    ¬(itp012.x0.getD (itp012.findIdx 1 - 1) 0 ≤ 1 ∧
      (1 : ℚ) < itp012.x0.getD (itp012.findIdx 1) 0) ∧
    (itp012.x0.getD (2 - 1) 0 ≤ 1 ∧ (1 : ℚ) < itp012.x0.getD 2 0) := by
  decide

/-- C3 (amended): the clamped index always lies in `[1, N-1]`; for
in-range queries `nodes[0] < x ≤ nodes[N-1]` it is the unique index `i`
with `nodes[i-1] < x ≤ nodes[i]` (the search inserts before equal
elements); queries at or below `nodes[0]` get interval 1 and queries at
or above `nodes[N-1]` get interval `N-1`; `find` never fails. -/
theorem C3_find_interval (self : interp) (hm : mono_ok self.x0 = true)
    (h2 : 2 ≤ self.x0.length) (x : ℚ) :
    (1 ≤ self.findIdx x ∧ self.findIdx x ≤ self.x0.length - 1) ∧
    (self.x0.getD 0 0 < x → x ≤ self.x0.getD (self.x0.length - 1) 0 →
      (self.x0.getD (self.findIdx x - 1) 0 < x ∧
       x ≤ self.x0.getD (self.findIdx x) 0) ∧
      (∀ i, 1 ≤ i → i ≤ self.x0.length - 1 →
        self.x0.getD (i - 1) 0 < x → x ≤ self.x0.getD i 0 →
        i = self.findIdx x)) ∧
    (x ≤ self.x0.getD 0 0 → self.findIdx x = 1) ∧
    (self.x0.getD (self.x0.length - 1) 0 ≤ x →
      self.findIdx x = self.x0.length - 1) ∧
    self.find x = (self.x0.getD (self.findIdx x - 1) 0,
      self.x0.getD (self.findIdx x) 0,
      self.ycol0.getD (self.findIdx x - 1) 0,
      self.ycol0.getD (self.findIdx x) 0) := by
  refine ⟨findIdx_bounds self h2 x, ?_, findIdx_of_le_first self hm h2 x,
    findIdx_of_last_le self hm h2 x, rfl⟩
  intro hlo hhi
  exact ⟨findIdx_bracket self hm h2 x hlo hhi,
    fun i hi1 hi2 hbl hbu => bracket_unique self hm h2 x i hi1 hi2 ⟨hbl, hbu⟩⟩

/-- Witness for C3 (amended) at nodes `[0,1,2]`, query `x = 1`: the
bracket `nodes[i-1] < x ≤ nodes[i]` holds at the returned index. -/
theorem C3_witness :
    (1 ≤ itp012.findIdx 1 ∧ itp012.findIdx 1 ≤ itp012.x0.length - 1) ∧
    (itp012.x0.getD (itp012.findIdx 1 - 1) 0 < 1 ∧
     (1 : ℚ) ≤ itp012.x0.getD (itp012.findIdx 1) 0) := by
  have h := C3_find_interval itp012 (by decide) (by decide) 1
  exact ⟨h.1, (h.2.1 (by decide) (by decide)).1⟩

/-- Counterexample to C4 as stated: `derivative` on a 0-d (scalar) query
does not produce a same-shape output — the un-raveled lookup fails on a
scalar index (see `interp.derivative`). -/
theorem C4_counterexample : itp012.derivative ⟨[], [1/2]⟩ = none := rfl

/-- C4 (amended): `evaluate` returns an output of exactly the query
shape for every well-formed query (in particular scalar, 1-D and 2-D);
`derivative` does so for 1-D queries, but fails on a scalar query (its
lookup requires a 1-D index vector); rank ≥ 2 `derivative` behavior
depends on multi-dimensional indexing of the external AD array and is not
guaranteed here. -/
theorem C4_shape_preservation (self : interp) (x : NDArray) (hwf : x.wf) :
    (∃ y : NDArray, self.evaluate x = some y ∧ y.shape = x.shape) ∧
    (x.shape.length = 1 →
      ∃ y : NDArray, self.derivative x = some y ∧ y.shape = x.shape) ∧
    (x.shape = [] → self.derivative x = none) := by
  refine ⟨⟨⟨x.shape, x.data.map self.evalAt⟩, evaluate_shape self x hwf, rfl⟩,
    fun h1 => ⟨⟨x.shape, x.data.map self.derivAt⟩,
      derivative_shape_1d self x h1, rfl⟩, fun h0 => ?_⟩
  unfold interp.derivative
  rw [if_neg (by rw [h0]; simp)]

/-- Witness for C4 (amended): a 2-D query of shape `[1,2]` on the linear
state over `[0,1,2]`. -/
theorem C4_witness :
    (∃ y : NDArray, itp012.evaluate ⟨[1, 2], [0, 1]⟩ = some y ∧
      y.shape = ([1, 2] : List ℕ)) ∧
    (([1, 2] : List ℕ).length = 1 →
      ∃ y : NDArray, itp012.derivative ⟨[1, 2], [0, 1]⟩ = some y ∧
        y.shape = ([1, 2] : List ℕ)) ∧
    (([1, 2] : List ℕ) = [] → itp012.derivative ⟨[1, 2], [0, 1]⟩ = none) :=
  C4_shape_preservation itp012 ⟨[1, 2], [0, 1]⟩ rfl

/-- Counterexample to C5 as stated: a linear-kind construction with 3
nodes and only 2 samples succeeds — no length comparison occurs in
`interp.__init__`, so a length mismatch does not raise. -/
theorem C5_counterexample :
    (interp.mk? (fun _ _ => []) [0, 1, 2] [0, 1] "linear").isSome = true ∧
    ([(0 : ℚ), 1, 2] : List ℚ).length ≠ ([(0 : ℚ), 1] : List ℚ).length := by
  constructor
  · rfl
  · decide

/-- C5 (amended): construction fails exactly when the nodes are not
strictly increasing (the `assert`, e.g. nodes `[0,2,1]`) or the kind is
unrecognized (`ValueError`); a nodes/samples length mismatch is not
checked and does not by itself fail construction.  This holds for every
outcome of the external cubic solver; in the functional model a failed
construction yields no interpolant value at all (no partial state). -/
theorem C5_construction_errors (sol : List ℚ → List ℚ → List ℚ)
    (x0 y0 : List ℚ) (type : String) :
    (interp.mk? sol x0 y0 type).isSome =
      (mono_ok x0 && (type == "linear" || type == "cubic")) :=
  mk?_isSome sol x0 y0 type

/-- C8: for the cubic state over nodes `[0,1,2,3]` and samples
`[0,1,0,1]` whose stored derivative vector is a root of the continuity
residual, `evaluate(0.5)` lies strictly between 0 and 1 and differs from
the linear blend `0.5`, and evaluation at the nodes reproduces
`[0,1,0,1]` exactly. -/
theorem C8_concrete_cubic (yp : List ℚ) (hlen : yp.length = 4)
    (hres : cspline_resid yp [0, 1, 2, 3] [0, 1, 0, 1] = [0, 0, 0, 0]) :
    (0 < (cubic0123 yp).evalAt (1/2) ∧ (cubic0123 yp).evalAt (1/2) < 1 ∧
     (cubic0123 yp).evalAt (1/2) ≠ 1/2) ∧
    ((cubic0123 yp).evalAt 0 = 0 ∧ (cubic0123 yp).evalAt 1 = 1 ∧
     (cubic0123 yp).evalAt 2 = 0 ∧ (cubic0123 yp).evalAt 3 = 1) := by
  rcases yp with _ | ⟨a, yp⟩
  · simp at hlen
  rcases yp with _ | ⟨b, yp⟩
  · simp at hlen
  rcases yp with _ | ⟨c, yp⟩
  · simp at hlen
  rcases yp with _ | ⟨d, yp⟩
  · simp at hlen
  rcases yp with _ | ⟨e, yp⟩
  swap
  · simp at hlen
  simp only [cspline_resid, curv_Lv, curv_Rv, slopev, dxv, List.dropLast,
    List.tail_cons, List.zipWith_cons_cons, List.zipWith_nil_right,
    List.zipWith_nil_left, List.map_cons, List.map_nil, List.take,
    List.length_cons, List.length_nil, List.drop, List.cons_append,
    List.nil_append, List.cons.injEq, and_true] at hres
  norm_num at hres
  obtain ⟨h1, h2, h3, h4⟩ := hres
  have ha : a = 5/3 := by linarith
  have hb : b = -(1/3) := by linarith
  subst ha hb
  have hmono : mono_ok (cubic0123 [5/3, -(1/3), c, d]).x0 = true := by
    simp only [cubic0123]
    decide
  have hlen4 : 2 ≤ (cubic0123 [5/3, -(1/3), c, d]).x0.length := by
    simp only [cubic0123]
    decide
  have hn0 := evalAt_node (cubic0123 [5/3, -(1/3), c, d]) hmono hlen4 0
    (by simp only [cubic0123]; decide)
  have hn1 := evalAt_node (cubic0123 [5/3, -(1/3), c, d]) hmono hlen4 1
    (by simp only [cubic0123]; decide)
  have hn2 := evalAt_node (cubic0123 [5/3, -(1/3), c, d]) hmono hlen4 2
    (by simp only [cubic0123]; decide)
  have hn3 := evalAt_node (cubic0123 [5/3, -(1/3), c, d]) hmono hlen4 3
    (by simp only [cubic0123]; decide)
  simp only [cubic0123, List.getD] at hn0 hn1 hn2 hn3
  norm_num at hn0 hn1 hn2 hn3
  have hidx : (interp.mk [0, 1, 2, 3] [0, 1, 0, 1]
      (some [5/3, -(1/3), c, d])).findIdx (1/2) = 1 := by
    simp only [interp.findIdx, searchsorted]
    norm_num [List.countP, List.countP.go]
  have heval : (cubic0123 [5/3, -(1/3), c, d]).evalAt (1/2) = 3/4 := by
    simp only [cubic0123, interp.evalAt, hidx, List.getD]
    norm_num
  refine ⟨⟨?_, ?_, ?_⟩, hn0, hn1, hn2, hn3⟩ <;> rw [heval] <;> norm_num

/-- Witness for C8: the actual root `yp = [5/3, -1/3, -1/3, 5/3]` of the
continuity residual for nodes `[0,1,2,3]` and samples `[0,1,0,1]`
(there `evaluate(0.5) = 3/4`). -/
theorem C8_witness :
    (0 < (cubic0123 [5/3, -(1/3), -(1/3), 5/3]).evalAt (1/2) ∧
     (cubic0123 [5/3, -(1/3), -(1/3), 5/3]).evalAt (1/2) < 1 ∧
     (cubic0123 [5/3, -(1/3), -(1/3), 5/3]).evalAt (1/2) ≠ 1/2) ∧
    ((cubic0123 [5/3, -(1/3), -(1/3), 5/3]).evalAt 0 = 0 ∧
     (cubic0123 [5/3, -(1/3), -(1/3), 5/3]).evalAt 1 = 1 ∧
     (cubic0123 [5/3, -(1/3), -(1/3), 5/3]).evalAt 2 = 0 ∧
     (cubic0123 [5/3, -(1/3), -(1/3), 5/3]).evalAt 3 = 1) :=
  C8_concrete_cubic [5/3, -(1/3), -(1/3), 5/3] rfl
    (by
      simp only [cspline_resid, curv_Lv, curv_Rv, slopev, dxv, List.dropLast,
        List.tail_cons, List.zipWith_cons_cons, List.zipWith_nil_right,
        List.zipWith_nil_left, List.map_cons, List.map_nil, List.take,
        List.length_cons, List.length_nil, List.drop, List.cons_append,
        List.nil_append, List.cons.injEq, and_true]
      norm_num)
